import Mathlib

/-!
Verification of the project-aggregation pipeline of this repository.

The embedding below follows the source modules:
  * scripts/normalize.ts       — manifest parsing, field derivation, record
    normalization, the comparator and the sort;
  * the manual loader (loadManualProjects, in the unnamed script sources) —
    per-file validation, defaulting and the inclusion gate;
  * scripts/build-projects.ts  — the merge step of main, which concatenates
    normalized remote records with manual ones and sorts the result.

Conventions of the embedding:
  * TypeScript string enums become inductive types (the string value
    "in-progress" is the constructor inProgress, and so on).
  * A JS value that may be undefined or null becomes an Option.
  * JS truthiness on strings is explicit: the helpers jsOrStr, jsTruthyStr and
    jsOrUndef model a || b and a || undefined, under which the empty string is
    falsy.  For arrays and booleans the only falsy inhabitants of the source
    types are undefined/null, so Option.getD models both || and ?? there.
  * pushedAt is carried as the integer timestamp of the record, because the
    comparator consumes it only through new Date(x).getTime().
  * yaml.load composed with the Zod schema parse (js-yaml and the schema in
    src/types/project are outside the sources here) is an abstract parameter
    of type String → Except String ProjectManifest: an Except.error models a
    thrown parse or validation error.
  * Project fields that no verified operation reads (metrics, the retained raw
    manifest echo) are omitted from the record model.
-/

namespace Portfolio

/-- Project status: the string enum complete | in-progress | archived. -/
inductive Status
  | complete
  | inProgress
  | archived
  deriving DecidableEq

/-- Project tier: the string enum flagship | mvp | experiment. -/
inductive Tier
  | flagship
  | mvp
  | experiment
  deriving DecidableEq

/-- Project visibility: the string enum featured | portfolio | labs | ventures. -/
inductive Visibility
  | featured
  | portfolio
  | labs
  | ventures
  deriving DecidableEq

/-- Record provenance: source is the string "github" for normalized remote
records and "manual" for records produced by the manual loader. -/
inductive Source
  | github
  | manual
  deriving DecidableEq

/-- The parsed sidecar manifest (ProjectManifest of src/types/project), as
consumed by normalize.ts.  Every field is optional.  The metrics field is
omitted: no operation verified here reads it. -/
structure ProjectManifest where
  title : Option String
  status : Option Status
  tier : Option Tier
  visibility : Option Visibility
  stack : Option (List String)
  roles : Option (List String)
  live_url : Option String
  demo_url : Option String
  repo_url : Option String
  homepage_url : Option String
  highlights : Option (List String)
  topics : Option (List String)
  deriving DecidableEq

/-- A raw remote repository record, restricted to the fields normalizeProject
reads.  objectText is repo.object?.text (the sidecar manifest source), and
topicNames is repositoryTopics.nodes.map(node => node.topic.name). -/
structure GitHubRepository where
  name : String
  description : Option String
  url : String
  homepageUrl : Option String
  stargazerCount : Nat
  pushedAt : Int
  openGraphImageUrl : Option String
  objectText : Option String
  topicNames : List String
  deriving DecidableEq

/-- The canonical project record (Project of src/types/project), restricted to
the fields the verified operations read or write.  pushedAt is the integer
timestamp of the record (see the module comment). -/
structure Project where
  slug : String
  title : String
  description : Option String
  source : Source
  status : Status
  tier : Tier
  topics : List String
  domains : List String
  stack : List String
  roles : List String
  repoUrl : Option String
  homepageUrl : Option String
  liveUrl : Option String
  demoUrl : Option String
  stars : Nat
  pushedAt : Int
  ogImage : Option String
  highlights : Option (List String)
  visibility : Visibility
  deriving DecidableEq

/-- JS a || b for an optional string a and string b: a unless it is absent or
empty (the empty string is falsy). -/
def jsOrStr (a : Option String) (b : String) : String :=
  match a with
  | some s => if s = "" then b else s
  | none => b

/-- JS a || undefined for an optional string: normalizes an empty string to
absent. -/
def jsTruthyStr (a : Option String) : Option String :=
  match a with
  | some s => if s = "" then none else some s
  | none => none

/-- JS a || b || undefined for two optional strings. -/
def jsOrUndef (a b : Option String) : Option String :=
  match jsTruthyStr a with
  | some s => some s
  | none => jsTruthyStr b

/-- Character-level model of JS s.startsWith(p): the characters of p are an
initial segment of the characters of s. -/
def strHasPre (p s : String) : Bool :=
  p.data.isPrefixOf s.data

/-- The remainder of a string after its first n characters.  On a tag that
starts with an n-character namespace this equals the source's
tag.replace(namespace, ''), since replace removes the first occurrence of the
pattern and that occurrence is the leading one. -/
def strDropChars (n : Nat) (s : String) : String :=
  String.mk (s.data.drop n)

/-- parseManifest of normalize.ts.  loadAndParse abstracts yaml.load composed
with ProjectManifestSchema.parse; a thrown error is an Except.error and is
caught here, yielding none.  The leading falsy guard returns none for an
absent and for an empty input. -/
def parseManifest (loadAndParse : String → Except String ProjectManifest)
    (manifestText : Option String) : Option ProjectManifest :=
  match manifestText with
  | none => none
  | some txt =>
    if txt = "" then none
    else
      match loadAndParse txt with
      | Except.ok m => some m
      | Except.error _ => none

/-- extractDomainsFromTopics of normalize.ts: keep the topics that start with
the seven-character namespace "domain:" and strip that namespace. -/
def extractDomainsFromTopics (topics : List String) : List String :=
  (topics.filter (fun topic => strHasPre "domain:" topic)).map
    (fun topic => strDropChars 7 topic)

/-- deriveStatus of normalize.ts.  Priority: manifest.status, else the first
topic carrying the ten-character namespace "portfolio:" when its value is
complete or archived, else in-progress. -/
def deriveStatus (manifest : Option ProjectManifest) (topics : List String) :
    Status :=
  match manifest.bind ProjectManifest.status with
  | some s => s
  | none =>
    match topics.filter (fun topic => strHasPre "portfolio:" topic) with
    | [] => Status.inProgress
    | firstTopic :: _ =>
      let statusTopic := strDropChars 10 firstTopic
      if statusTopic = "complete" then Status.complete
      else if statusTopic = "archived" then Status.archived
      else Status.inProgress

/-- deriveTier of normalize.ts: manifest.tier, else experiment.  The function
receives no topics; tiers are never derived from tags. -/
def deriveTier (manifest : Option ProjectManifest) : Tier :=
  (manifest.bind ProjectManifest.tier).getD Tier.experiment

/-- deriveVisibility of normalize.ts.  Priority: manifest.visibility, else the
first "portfolio:"-namespace topic when its value names a visibility, else
portfolio. -/
def deriveVisibility (manifest : Option ProjectManifest) (topics : List String) :
    Visibility :=
  match manifest.bind ProjectManifest.visibility with
  | some v => v
  | none =>
    match topics.filter (fun topic => strHasPre "portfolio:" topic) with
    | [] => Visibility.portfolio
    | firstTopic :: _ =>
      let visibilityTopic := strDropChars 10 firstTopic
      if visibilityTopic = "featured" then Visibility.featured
      else if visibilityTopic = "portfolio" then Visibility.portfolio
      else if visibilityTopic = "labs" then Visibility.labs
      else if visibilityTopic = "ventures" then Visibility.ventures
      else Visibility.portfolio

/-- Iteration order of a JS Set built from a list, as in
[...new Set([...githubTopics, ...manifestTopics])]: every element appears
once, at the position of its first occurrence. -/
def setDedup : List String → List String
  | [] => []
  | t :: ts => t :: setDedup (ts.filter (fun u => u ≠ t))
termination_by l => l.length
decreasing_by
  simp only [List.length_cons]
  exact Nat.lt_succ_of_le (List.length_filter_le _ _)

/-- normalizeProject of normalize.ts. -/
def normalizeProject (loadAndParse : String → Except String ProjectManifest)
    (repo : GitHubRepository) : Project :=
  let manifest := parseManifest loadAndParse repo.objectText
  let githubTopics := repo.topicNames
  let manifestTopics := (manifest.bind ProjectManifest.topics).getD []
  let allTopics := setDedup (githubTopics ++ manifestTopics)
  { slug := repo.name
    title := jsOrStr (manifest.bind ProjectManifest.title) repo.name
    description := jsTruthyStr repo.description
    source := Source.github
    status := deriveStatus manifest allTopics
    tier := deriveTier manifest
    topics := allTopics
    domains := extractDomainsFromTopics allTopics
    stack := (manifest.bind ProjectManifest.stack).getD []
    roles := (manifest.bind ProjectManifest.roles).getD []
    repoUrl := some repo.url
    homepageUrl := jsOrUndef repo.homepageUrl
      (manifest.bind ProjectManifest.homepage_url)
    liveUrl := jsTruthyStr (manifest.bind ProjectManifest.live_url)
    demoUrl := jsTruthyStr (manifest.bind ProjectManifest.demo_url)
    stars := repo.stargazerCount
    pushedAt := repo.pushedAt
    ogImage := jsTruthyStr repo.openGraphImageUrl
    highlights := manifest.bind ProjectManifest.highlights
    visibility := deriveVisibility manifest allTopics }

/-- The numeric tier rank of compareProjects. -/
def tierOrder : Tier → Int
  | Tier.flagship => 0
  | Tier.mvp => 1
  | Tier.experiment => 2

/-- The numeric status rank of compareProjects. -/
def statusOrder : Status → Int
  | Status.complete => 0
  | Status.inProgress => 1
  | Status.archived => 2

/-- compareProjects of normalize.ts: tier rank difference, else status rank
difference, else most-recent-first timestamp difference. -/
def compareProjects (a b : Project) : Int :=
  let tierComparison := tierOrder a.tier - tierOrder b.tier
  if tierComparison ≠ 0 then tierComparison
  else
    let statusComparison := statusOrder a.status - statusOrder b.status
    if statusComparison ≠ 0 then statusComparison
    else b.pushedAt - a.pushedAt

/-- The non-positive-comparator relation a JS stable sort realizes. -/
def projLE (a b : Project) : Bool :=
  decide (compareProjects a b ≤ 0)

/-- sortProjects of normalize.ts: [...projects].sort(compareProjects).  The
ECMAScript sort is stable; the stable mergeSort models it. -/
def sortProjects (projects : List Project) : List Project :=
  projects.mergeSort projLE

/-- The merge and rank steps of main in scripts/build-projects.ts:
allProjects = [...githubProjects, ...manualProjects] followed by
sortProjects(allProjects).  No deduplication is performed anywhere in main. -/
def buildMergedOutput (githubProjects manualProjects : List Project) :
    List Project :=
  sortProjects (githubProjects ++ manualProjects)

/-- The manual-file manifest shape (ManualProjectManifest of the loader).
Every field is optional here because the yaml cast is unchecked and the code
validates title and source itself.  The manifest field named include in the
source is includeFlag here, include being reserved in Lean. -/
structure ManualProjectManifest where
  slug : Option String
  title : Option String
  source : Option String
  includeFlag : Option Bool
  visibility : Option Visibility
  status : Option Status
  tier : Option Tier
  stack : Option (List String)
  roles : Option (List String)
  live_url : Option String
  demo_url : Option String
  repo_url : Option String
  homepage_url : Option String
  highlights : Option (List String)
  topics : Option (List String)
  description : Option String
  deriving DecidableEq

/-- The three per-file outcomes the loader accounts: pushed onto projects,
skipped on the portfolio:hide sentinel, or skipped as not included. -/
inductive InclusionOutcome
  | included
  | skippedHide
  | skippedNotIncluded
  deriving DecidableEq

/-- The project record the loader builds for one manual file, after the
defaults: include true, visibility ventures, status in-progress, tier mvp,
topics [portfolio:include], stars 0, pushedAt the load-time timestamp (the
parameter now).  slug is manifest.slug || filename-derived slug. -/
def manualProjectOf (filenameSlug : String) (m : ManualProjectManifest)
    (now : Int) : Project :=
  let topics := m.topics.getD ["portfolio:include"]
  { slug := jsOrStr m.slug filenameSlug
    title := m.title.getD ""
    description := m.description
    source := Source.manual
    status := m.status.getD Status.inProgress
    tier := m.tier.getD Tier.mvp
    topics := topics
    domains := extractDomainsFromTopics topics
    stack := m.stack.getD []
    roles := m.roles.getD []
    repoUrl := jsTruthyStr m.repo_url
    homepageUrl := jsTruthyStr m.homepage_url
    liveUrl := jsTruthyStr m.live_url
    demoUrl := jsTruthyStr m.demo_url
    stars := 0
    pushedAt := now
    ogImage := none
    highlights := m.highlights
    visibility := m.visibility.getD Visibility.ventures }

/-- The loader's inclusion gate: shouldExclude is the portfolio:hide sentinel,
shouldInclude is the include flag conjoined with the portfolio:include
sentinel; hide is checked first. -/
def inclusionDecision (includeFlag : Bool) (topics : List String) :
    InclusionOutcome :=
  let shouldInclude := includeFlag && topics.contains "portfolio:include"
  let shouldExclude := topics.contains "portfolio:hide"
  if shouldExclude then InclusionOutcome.skippedHide
  else if shouldInclude then InclusionOutcome.included
  else InclusionOutcome.skippedNotIncluded

/-- Per-file processing of loadManualProjects: validate title (thrown when
absent or empty, both falsy) and the source marker, build the record with its
defaults, and run the inclusion gate.  The Zod ProjectSchema re-validation of
the freshly built record sits between construction and the gate in the source;
on a record built by this code path it cannot fail (the record is well-formed
by construction), so it is the identity here.  An Except.error is a thrown
per-file validation failure, accounted in stats.invalidFiles by the caller. -/
def processManualRecord (filenameSlug : String) (m : ManualProjectManifest)
    (now : Int) : Except String (Project × InclusionOutcome) :=
  if m.title.getD "" = "" then
    Except.error "Missing required field: title"
  else if m.source ≠ some "manual" then
    Except.error "Source must be \"manual\""
  else
    Except.ok (manualProjectOf filenameSlug m now,
      inclusionDecision (m.includeFlag.getD true)
        (m.topics.getD ["portfolio:include"]))

/-- The four derived categorical fields of one (manifest, tags) input,
grouped: status, tier, visibility, domains.  Grouping of the four deriver
functions of normalize.ts, used to state their independence. -/
def deriveFields (manifest : Option ProjectManifest) (topics : List String) :
    Status × Tier × Visibility × List String :=
  (deriveStatus manifest topics, deriveTier manifest,
    deriveVisibility manifest topics, extractDomainsFromTopics topics)

/-- Status derivation as the specification sentence words it: manifest.status,
else the value of the first tag matching the full pattern
portfolio:(complete|archived), else in-progress.  Stated only to be compared
with deriveStatus, which instead inspects the first "portfolio:"-namespace tag
whatever its value. -/
def deriveStatusSpecRule (manifest : Option ProjectManifest)
    (topics : List String) : Status :=
  match manifest.bind ProjectManifest.status with
  | some s => s
  | none =>
    match topics.find?
        (fun t => t = "portfolio:complete" || t = "portfolio:archived") with
    | some t =>
      if t = "portfolio:complete" then Status.complete else Status.archived
    | none => Status.inProgress

/-- Status derivation as amended: manifest.status, else inspect only the first
"portfolio:"-namespace tag, whose value yields the status exactly when it is
complete or archived, else in-progress.  find?-based restatement of the
filter-based deriveStatus. -/
def deriveStatusFirstNamespaceTag (manifest : Option ProjectManifest)
    (topics : List String) : Status :=
  match manifest.bind ProjectManifest.status with
  | some s => s
  | none =>
    match topics.find? (fun topic => strHasPre "portfolio:" topic) with
    | none => Status.inProgress
    | some firstTopic =>
      let statusTopic := strDropChars 10 firstTopic
      if statusTopic = "complete" then Status.complete
      else if statusTopic = "archived" then Status.archived
      else Status.inProgress

/-- A remote record with slug dup and no sidecar manifest. -/
def dupRemoteRecord : GitHubRepository :=
  { name := "dup"
    description := none
    url := "https://github.example/dup"
    homepageUrl := none
    stargazerCount := 0
    pushedAt := 5
    openGraphImageUrl := none
    objectText := none
    topicNames := [] }

/-- The normalized remote record with slug dup (the loader parameter is
irrelevant: the record has no sidecar text). -/
def dupRemoteProject : Project :=
  normalizeProject (fun _ => Except.error "unused") dupRemoteRecord

/-- A manual record declaring the same slug dup, valid and included under the
default gate values. -/
def dupLocalManifest : ManualProjectManifest :=
  { slug := none
    title := some "Dup"
    source := some "manual"
    includeFlag := none
    visibility := none
    status := none
    tier := none
    stack := none
    roles := none
    live_url := none
    demo_url := none
    repo_url := none
    homepage_url := none
    highlights := none
    topics := none
    description := none }

/-- The loaded manual record with slug dup. -/
def dupLocalProject : Project :=
  manualProjectOf "dup" dupLocalManifest 0

/-- A manual record whose topic list repeats the same domain tag twice. -/
def dupDomainsManifest : ManualProjectManifest :=
  { slug := none
    title := some "Dup domains"
    source := some "manual"
    includeFlag := none
    visibility := none
    status := none
    tier := none
    stack := none
    roles := none
    live_url := none
    demo_url := none
    repo_url := none
    homepage_url := none
    highlights := none
    topics := some ["domain:x", "domain:x"]
    description := none }

/-- A manual record carrying the portfolio:hide sentinel next to a positive
include flag and the include sentinel. -/
def hideLocalManifest : ManualProjectManifest :=
  { slug := none
    title := some "Hidden"
    source := some "manual"
    includeFlag := some true
    visibility := none
    status := none
    tier := none
    stack := none
    roles := none
    live_url := none
    demo_url := none
    repo_url := none
    homepage_url := none
    highlights := none
    topics := some ["portfolio:include", "portfolio:hide"]
    description := none }

/-- The empty manifest: every declarable field absent. -/
def emptyManifest : ProjectManifest :=
  { title := none
    status := none
    tier := none
    visibility := none
    stack := none
    roles := none
    live_url := none
    demo_url := none
    repo_url := none
    homepage_url := none
    highlights := none
    topics := none }

/-- A manifest whose only declaration is a repo_url, the field the
specification calls attacker-editable. -/
def evilRepoUrlManifest : ProjectManifest :=
  { emptyManifest with repo_url := some "https://evil.example/repo" }

/-- The dup remote record with a sidecar manifest attached. -/
def manifestRemoteRecord : GitHubRepository :=
  { dupRemoteRecord with objectText := some "repo_url: https://evil.example" }

/- ## Helper lemmas -/

theorem strHasPre_iff (p s : String) :
    strHasPre p s = true ↔ ∃ u, p.data ++ u = s.data := by
  unfold strHasPre
  rw [ List.isPrefixOf_iff_prefix]
  exact Iff.rfl

theorem domain_not_portfolio (t : String)
    (h : strHasPre "domain:" t = true) : strHasPre "portfolio:" t = false := by
  rw [strHasPre_iff] at h
  obtain ⟨u, hu⟩ := h
  by_contra hb
  rw [Bool.not_eq_false, strHasPre_iff] at hb
  obtain ⟨v, hv⟩ := hb
  rw [← hu] at hv
  have hd : "domain:".data = ['d', 'o', 'm', 'a', 'i', 'n', ':'] := rfl
  have hp : "portfolio:".data =
      ['p', 'o', 'r', 't', 'f', 'o', 'l', 'i', 'o', ':'] := rfl
  rw [hd, hp] at hv
  simp only [List.cons_append, List.cons.injEq] at hv
  exact absurd hv.1 (by decide)

theorem portfolio_not_domain (t : String)
    (h : strHasPre "portfolio:" t = true) : strHasPre "domain:" t = false := by
  rw [strHasPre_iff] at h
  obtain ⟨u, hu⟩ := h
  by_contra hb
  rw [Bool.not_eq_false, strHasPre_iff] at hb
  obtain ⟨v, hv⟩ := hb
  rw [← hu] at hv
  have hd : "domain:".data = ['d', 'o', 'm', 'a', 'i', 'n', ':'] := rfl
  have hp : "portfolio:".data =
      ['p', 'o', 'r', 't', 'f', 'o', 'l', 'i', 'o', ':'] := rfl
  rw [hd, hp] at hv
  simp only [List.cons_append, List.cons.injEq] at hv
  exact absurd hv.1 (by decide)

theorem strDropChars_inj_on_domain (s t : String)
    (hs : strHasPre "domain:" s = true) (ht : strHasPre "domain:" t = true)
    (h : strDropChars 7 s = strDropChars 7 t) : s = t := by
  rw [strHasPre_iff] at hs ht
  obtain ⟨u, hu⟩ := hs
  obtain ⟨v, hv⟩ := ht
  have h' : s.data.drop 7 = t.data.drop 7 := congrArg String.data h
  have h7 : ("domain:".data).length = 7 := by decide
  rw [← hu, ← hv, ← h7, List.drop_left, List.drop_left] at h'
  exact String.ext (by rw [← hu, ← hv, h'])

theorem setDedup_subset (l : List String) : ∀ a ∈ setDedup l, a ∈ l := by
  induction l using setDedup.induct with
  | case1 => simp [setDedup]
  | case2 t ts ih =>
    intro a ha
    rw [setDedup, List.mem_cons] at ha
    rcases ha with h | ha
    · exact h ▸ List.mem_cons_self _ _
    · exact List.mem_cons_of_mem _ (List.mem_of_mem_filter (ih a ha))

theorem setDedup_nodup (l : List String) : (setDedup l).Nodup := by
  induction l using setDedup.induct with
  | case1 => simp [setDedup]
  | case2 t ts ih =>
    rw [setDedup]
    refine List.nodup_cons.mpr ⟨fun hmem => ?_, ih⟩
    have := setDedup_subset _ _ hmem
    simp at this

theorem compareProjects_le_iff (a b : Project) :
    compareProjects a b ≤ 0 ↔
      (tierOrder a.tier < tierOrder b.tier ∨
        (tierOrder a.tier = tierOrder b.tier ∧
          (statusOrder a.status < statusOrder b.status ∨
            (statusOrder a.status = statusOrder b.status ∧
              b.pushedAt ≤ a.pushedAt)))) := by
  unfold compareProjects
  simp only []
  split_ifs with h1 h2 <;> omega

theorem projLE_trans (a b c : Project) (hab : projLE a b = true)
    (hbc : projLE b c = true) : projLE a c = true := by
  simp only [projLE, decide_eq_true_eq, compareProjects_le_iff] at *
  omega

theorem projLE_total (a b : Project) : (projLE a b || projLE b a) = true := by
  simp only [projLE, Bool.or_eq_true, decide_eq_true_eq,
    compareProjects_le_iff]
  omega

theorem find?_eq_filter_head (p : String → Bool) (l : List String) :
    l.find? p = (l.filter p).head? := by
  induction l with
  | nil => rfl
  | cons t ts ih =>
    by_cases hp : p t = true
    · rw [List.find?_cons_of_pos _ hp, List.filter_cons_of_pos hp]
      rfl
    · rw [List.find?_cons_of_neg _ hp, List.filter_cons_of_neg hp, ih]

theorem filter_middle_false (p : String → Bool) (t : String)
    (h : p t = false) (l₁ l₂ : List String) :
    (l₁ ++ t :: l₂).filter p = (l₁ ++ l₂).filter p := by
  simp [List.filter_append, List.filter_cons, h]

theorem deriveStatus_eq_of_filter_eq (manifest : Option ProjectManifest)
    {t₁ t₂ : List String}
    (h : t₁.filter (fun topic => strHasPre "portfolio:" topic)
        = t₂.filter (fun topic => strHasPre "portfolio:" topic)) :
    deriveStatus manifest t₁ = deriveStatus manifest t₂ := by
  unfold deriveStatus
  rw [h]

theorem deriveVisibility_eq_of_filter_eq (manifest : Option ProjectManifest)
    {t₁ t₂ : List String}
    (h : t₁.filter (fun topic => strHasPre "portfolio:" topic)
        = t₂.filter (fun topic => strHasPre "portfolio:" topic)) :
    deriveVisibility manifest t₁ = deriveVisibility manifest t₂ := by
  unfold deriveVisibility
  rw [h]

theorem extractDomains_eq_of_filter_eq {t₁ t₂ : List String}
    (h : t₁.filter (fun topic => strHasPre "domain:" topic)
        = t₂.filter (fun topic => strHasPre "domain:" topic)) :
    extractDomainsFromTopics t₁ = extractDomainsFromTopics t₂ := by
  unfold extractDomainsFromTopics
  rw [h]

/- ## Claim theorems -/

/-- C1, counterexample: the merged-and-sorted collection of a run can hold two
records with the same slug.  A remote record and a manual record both carrying
slug dup — the manual one genuinely produced and included by the loader —
survive the merge side by side: main concatenates and sorts but never
deduplicates, so the claimed first-seen-by-slug rule does not exist in the
code. -/
theorem merged_output_slug_collision_cex :
    processManualRecord "dup" dupLocalManifest 0 =
        Except.ok (dupLocalProject, InclusionOutcome.included) ∧
      ¬ ((buildMergedOutput [dupRemoteProject] [dupLocalProject]).map
          Project.slug).Nodup := by
  constructor
  · rfl
  · intro hnd
    have hperm :
        ((buildMergedOutput [dupRemoteProject] [dupLocalProject]).map
            Project.slug).Perm
          (([dupRemoteProject] ++ [dupLocalProject]).map Project.slug) :=
      (List.mergeSort_perm _ _).map _
    have hdup := hperm.nodup_iff.mp hnd
    rw [show ([dupRemoteProject] ++ [dupLocalProject]).map Project.slug
        = ["dup", "dup"] from rfl] at hdup
    exact absurd hdup (by decide)

/-- C1, amended: the run performs no deduplication at all.  The final output
of the merge-and-rank step is exactly a permutation of the remote records
followed by the local ones, so when a remote-sourced and a local-sourced
record declare the same slug, both appear in the final output. -/
theorem buildMergedOutput_perm (githubProjects manualProjects : List Project) :
    (buildMergedOutput githubProjects manualProjects).Perm
      (githubProjects ++ manualProjects) :=
  List.mergeSort_perm _ _

/-- C2, counterexample: with no manifest status and topics
[portfolio:featured, portfolio:complete], the code inspects only the first
"portfolio:"-namespace tag (featured, not a status) and yields the default
in-progress, whereas the claimed rule — the first tag matching the full
pattern portfolio:(complete|archived) — yields complete. -/
theorem deriveStatus_first_tag_cex :
    deriveStatus none ["portfolio:featured", "portfolio:complete"]
        = Status.inProgress ∧
      deriveStatusSpecRule none ["portfolio:featured", "portfolio:complete"]
        = Status.complete := by
  constructor
  · rfl
  · rfl

/-- C2, amended: the derived status equals manifest.status when declared;
otherwise the code inspects only the first "portfolio:"-namespace tag in the
list, and the status is that tag's value exactly when the value is complete or
archived; in every other case (no namespace tag, or a first namespace tag with
another value, even when a later tag is portfolio:complete or
portfolio:archived) the status is the default in-progress. -/
theorem deriveStatus_eq_firstNamespaceTag :
    ∀ (manifest : Option ProjectManifest) (topics : List String),
      deriveStatus manifest topics
        = deriveStatusFirstNamespaceTag manifest topics := by
  intro manifest topics
  unfold deriveStatus deriveStatusFirstNamespaceTag
  cases manifest.bind ProjectManifest.status with
  | some s => rfl
  | none =>
    rw [find?_eq_filter_head]
    cases topics.filter (fun topic => strHasPre "portfolio:" topic) with
    | nil => rfl
    | cons t ts => rfl

/-- C3: the output of sortProjects is sorted under the tier, then status, then
most-recent-first comparator: every adjacent pair (a, b) satisfies
compareProjects a b ≤ 0. -/
theorem sortProjects_sorted_adjacent (projects : List Project) :
    List.Chain' (fun a b => compareProjects a b ≤ 0)
      (sortProjects projects) := by
  have h := List.sorted_mergeSort projLE_trans projLE_total projects
  exact List.Pairwise.chain'
    (h.imp (fun hab => by simpa [projLE, decide_eq_true_eq] using hab))

/-- C4: sorting is idempotent: re-sorting the output of sortProjects yields
the same sequence, so sorting an already-sorted sequence is a no-op. -/
theorem sortProjects_idempotent (projects : List Project) :
    sortProjects (sortProjects projects) = sortProjects projects :=
  List.mergeSort_of_sorted
    (List.sorted_mergeSort projLE_trans projLE_total projects)

/-- C5: manifest parsing never raises.  For every abstract load-and-validate
pipeline and every input, parseManifest returns none exactly when the input is
absent, empty, or the pipeline throws (a parse or schema-validation error);
and a some result is exactly a successfully parsed and validated document. -/
theorem parseManifest_never_raises :
    ∀ (loadAndParse : String → Except String ProjectManifest)
      (manifestText : Option String),
      (parseManifest loadAndParse manifestText = none ↔
        (manifestText = none ∨ manifestText = some "" ∨
          ∃ txt e, manifestText = some txt ∧
            loadAndParse txt = Except.error e)) ∧
      (∀ m, parseManifest loadAndParse manifestText = some m →
        ∃ txt, manifestText = some txt ∧ loadAndParse txt = Except.ok m) := by
  intro loadAndParse manifestText
  constructor
  · cases manifestText with
    | none => simp [parseManifest]
    | some txt =>
      by_cases he : txt = ""
      · subst he
        simp [parseManifest]
      · cases hf : loadAndParse txt with
        | ok m =>
          simp [parseManifest, he, hf]
        | error e =>
          constructor
          · intro _
            exact Or.inr (Or.inr ⟨txt, e, rfl, hf⟩)
          · intro _
            simp [parseManifest, he, hf]
  · intro m hm
    cases manifestText with
    | none => simp [parseManifest] at hm
    | some txt =>
      by_cases he : txt = ""
      · subst he
        simp [parseManifest] at hm
      · cases hf : loadAndParse txt with
        | ok m' =>
          simp [parseManifest, he, hf] at hm
          exact ⟨txt, rfl, by rw [hf, hm]⟩
        | error e =>
          simp [parseManifest, he, hf] at hm

/-- C5 witness: a concrete pipeline that accepts its input yields the parsed
manifest, and the some-result case of the theorem recovers the accepting
run. -/
theorem parseManifest_never_raises_witness :
    parseManifest (fun _ => Except.ok emptyManifest) (some "title: x")
        = some emptyManifest ∧
      ∃ txt, (some "title: x" : Option String) = some txt ∧
        (fun _ => Except.ok emptyManifest : String → Except String
          ProjectManifest) txt = Except.ok emptyManifest :=
  ⟨rfl, (parseManifest_never_raises (fun _ => Except.ok emptyManifest)
    (some "title: x")).2 emptyManifest rfl⟩

/-- C6: the loader's inclusion policy is a dual gate.  For every manual file
that passes validation, if the (defaulted) topics carry portfolio:hide the
outcome is skipped-hidden regardless of the include flag; otherwise the record
is included if and only if the include flag (defaulting to true) holds and
portfolio:include (defaulting to present when topics are absent) is among the
topics. -/
theorem manual_inclusion_dual_gate :
    ∀ (filenameSlug : String) (m : ManualProjectManifest) (now : Int)
      (p : Project) (oc : InclusionOutcome),
      processManualRecord filenameSlug m now = Except.ok (p, oc) →
      ((m.topics.getD ["portfolio:include"]).contains "portfolio:hide" = true →
        oc = InclusionOutcome.skippedHide) ∧
      ((m.topics.getD ["portfolio:include"]).contains "portfolio:hide"
          = false →
        (oc = InclusionOutcome.included ↔
          m.includeFlag.getD true = true ∧
            (m.topics.getD ["portfolio:include"]).contains "portfolio:include"
              = true)) := by
  intro filenameSlug m now p oc h
  unfold processManualRecord at h
  split_ifs at h with h1 h2
  all_goals simp at h
  · obtain ⟨hp, hoc⟩ := h
    constructor
    · intro hhide
      rw [← hoc]
      unfold inclusionDecision
      simp only []
      rw [hhide]
      rfl
    · intro hhide
      rw [← hoc]
      unfold inclusionDecision
      simp only []
      rw [hhide]
      cases hflag : m.includeFlag.getD true <;>
        cases hinc : (m.topics.getD ["portfolio:include"]).contains
            "portfolio:include" <;>
          simp [hflag, hinc]

/-- C6 witness: a record carrying portfolio:hide next to a positive include
flag and the include sentinel is skipped as hidden. -/
theorem manual_inclusion_dual_gate_witness :
    inclusionDecision true ["portfolio:include", "portfolio:hide"]
      = InclusionOutcome.skippedHide :=
  (manual_inclusion_dual_gate "w" hideLocalManifest 0
      (manualProjectOf "w" hideLocalManifest 0)
      (inclusionDecision true ["portfolio:include", "portfolio:hide"])
      rfl).1 (by decide)

/-- C7, counterexample: the local loading path does not remove duplicate
domains.  A manual record whose topic list repeats domain:x loads with
domains [x, x]; extraction alone keeps duplicates, and only the remote path
deduplicates (its topics, before extraction). -/
theorem local_domains_duplicates_cex :
    (processManualRecord "t" dupDomainsManifest 0).toOption.map
        (fun pr => pr.1.domains) = some ["x", "x"] ∧
      ¬ (extractDomainsFromTopics ["domain:x", "domain:x"]).Nodup := by
  constructor
  · rfl
  · decide

/-- C7, amended: in the remote normalization path the derived domains list is
duplicate-free, because the topic union is deduplicated (first occurrence
wins) before extraction and stripping the domain namespace is injective on
namespace-carrying tags; the local path extracts directly from the manifest's
topic list and preserves whatever duplicates it holds. -/
theorem normalizeProject_domains_nodup :
    ∀ (loadAndParse : String → Except String ProjectManifest)
      (repo : GitHubRepository),
      ((normalizeProject loadAndParse repo).domains).Nodup := by
  intro loadAndParse repo
  have h : (normalizeProject loadAndParse repo).domains
      = extractDomainsFromTopics (setDedup (repo.topicNames ++
          ((parseManifest loadAndParse repo.objectText).bind
            ProjectManifest.topics).getD [])) := rfl
  rw [h]
  unfold extractDomainsFromTopics
  apply List.Nodup.map_on
  · intro x hx y hy hxy
    exact strDropChars_inj_on_domain x y (List.of_mem_filter hx)
      (List.of_mem_filter hy) hxy
  · exact (setDedup_nodup _).filter _

/-- C8: the normalized repoUrl is always the host record's own URL, never the
manifest's: it equals some repo.url, and two normalizations over records with
the same host URL agree on repoUrl whatever their manifests (in particular
whatever repo_url those manifests declare). -/
theorem normalizeProject_repoUrl_host :
    (∀ (loadAndParse : String → Except String ProjectManifest)
        (repo : GitHubRepository),
        (normalizeProject loadAndParse repo).repoUrl = some repo.url) ∧
      (∀ (loadA loadB : String → Except String ProjectManifest)
          (r s : GitHubRepository), r.url = s.url →
          (normalizeProject loadA r).repoUrl
            = (normalizeProject loadB s).repoUrl) := by
  constructor
  · intro loadAndParse repo
    rfl
  · intro loadA loadB r s h
    show some r.url = some s.url
    rw [h]

/-- C8 witness: the same host record read once with a manifest declaring an
attacker-controlled repo_url and once with an empty manifest yields the same
repoUrl. -/
theorem normalizeProject_repoUrl_host_witness :
    (normalizeProject (fun _ => Except.ok evilRepoUrlManifest)
        manifestRemoteRecord).repoUrl
      = (normalizeProject (fun _ => Except.ok emptyManifest)
          manifestRemoteRecord).repoUrl :=
  normalizeProject_repoUrl_host.2 _ _ _ _ rfl

/-- C9: derivation independence of the four categorical fields.  Inserting a
domain-namespace tag anywhere changes neither the derived status nor tier nor
visibility, and inserting a status-namespace (portfolio:) tag anywhere leaves
the extracted domains unchanged; tier consults no tags at all. -/
theorem derivation_independence :
    (∀ (manifest : Option ProjectManifest) (l₁ l₂ : List String) (t : String),
        strHasPre "domain:" t = true →
        (deriveFields manifest (l₁ ++ t :: l₂)).1
            = (deriveFields manifest (l₁ ++ l₂)).1 ∧
          (deriveFields manifest (l₁ ++ t :: l₂)).2.1
            = (deriveFields manifest (l₁ ++ l₂)).2.1 ∧
          (deriveFields manifest (l₁ ++ t :: l₂)).2.2.1
            = (deriveFields manifest (l₁ ++ l₂)).2.2.1) ∧
      (∀ (manifest : Option ProjectManifest) (l₁ l₂ : List String)
          (t : String), strHasPre "portfolio:" t = true →
          (deriveFields manifest (l₁ ++ t :: l₂)).2.2.2
            = (deriveFields manifest (l₁ ++ l₂)).2.2.2) := by
  constructor
  · intro manifest l₁ l₂ t ht
    have hf := filter_middle_false (fun topic => strHasPre "portfolio:" topic)
      t (domain_not_portfolio t ht) l₁ l₂
    exact ⟨deriveStatus_eq_of_filter_eq manifest hf, rfl,
      deriveVisibility_eq_of_filter_eq manifest hf⟩
  · intro manifest l₁ l₂ t ht
    have hf := filter_middle_false (fun topic => strHasPre "domain:" topic)
      t (portfolio_not_domain t ht) l₁ l₂
    exact extractDomains_eq_of_filter_eq hf

/-- C9 witness: appending domain:web to [portfolio:complete] leaves the
derived status component unchanged. -/
theorem derivation_independence_witness :
    strHasPre "domain:" "domain:web" = true ∧
      (deriveFields none ["portfolio:complete", "domain:web"]).1
        = (deriveFields none ["portfolio:complete"]).1 :=
  ⟨by decide, (derivation_independence.1 none ["portfolio:complete"] []
    "domain:web" (by decide)).1⟩

/-- C10: a manual record that loads successfully and declares no visibility,
status or tier gets the loader's own defaults — visibility ventures, status
in-progress, tier mvp — and stars 0; the field deriver used for remote
records would instead default visibility to portfolio. -/
theorem manual_defaults :
    (∀ (filenameSlug : String) (m : ManualProjectManifest) (now : Int)
        (p : Project) (oc : InclusionOutcome),
        processManualRecord filenameSlug m now = Except.ok (p, oc) →
        m.visibility = none → m.status = none → m.tier = none →
        p.visibility = Visibility.ventures ∧ p.status = Status.inProgress ∧
          p.tier = Tier.mvp ∧ p.stars = 0) ∧
      deriveVisibility none [] = Visibility.portfolio := by
  constructor
  · intro filenameSlug m now p oc h hv hs ht
    unfold processManualRecord at h
    split_ifs at h with h1 h2
    all_goals simp at h
    · obtain ⟨hp, hoc⟩ := h
      rw [← hp]
      refine ⟨?_, ?_, ?_, ?_⟩ <;> simp [manualProjectOf, hv, hs, ht]
  · rfl

/-- C10 witness: a minimal valid manual record with every optional field
absent loads with visibility ventures, status in-progress, tier mvp and
stars 0. -/
theorem manual_defaults_witness :
    (manualProjectOf "w" dupLocalManifest 0).visibility = Visibility.ventures
        ∧ (manualProjectOf "w" dupLocalManifest 0).status = Status.inProgress
        ∧ (manualProjectOf "w" dupLocalManifest 0).tier = Tier.mvp
        ∧ (manualProjectOf "w" dupLocalManifest 0).stars = 0 :=
  manual_defaults.1 "w" dupLocalManifest 0 _ _ rfl rfl rfl rfl

end Portfolio
